import Mathlib

/-!
Verification of the PyBATS multi-step forecasting core (PyBATS/forecast.py)
against its natural-language specification.

The Python source is shallowly embedded over exact rational arithmetic for
the linear-algebra / state-space portion, and over exact real arithmetic for
the density portion (logarithms, exponentials, the Gamma special function).
Randomness (numpy / scipy draws and distribution CDFs) is abstracted as
explicit oracle arguments, and the duck-typed per-family model adapters are
records of abstract functions, so every theorem quantifies over all possible
adapters and random outcomes.  Python exceptions are modelled with Except.
-/

open Matrix

/-- Errors a Python call in this module can surface: a singular-matrix
failure from numpy.linalg, an out-of-bounds index, an unbound name, plus
the AllMissing / InvalidHorizon precondition failures the specification
postulates (used to state the spec claims; the source never raises them). -/
inductive PyErr where
  | SingularMatrix : PyErr
  | IndexError : PyErr
  | NameError : PyErr
  | AllMissing : PyErr
  | InvalidHorizon : PyErr
deriving DecidableEq, Repr

/-- The caller-owned model snapshot plus the one capability the state-space
functions consume (get_mean_and_var).  State dimension p; exact rationals. -/
structure ModelSnapshot (p : ℕ) where
  a : Fin p → ℚ
  R : Matrix (Fin p) (Fin p) ℚ
  G : Matrix (Fin p) (Fin p) ℚ
  W : Matrix (Fin p) (Fin p) ℚ
  F : Fin p → ℚ
  iregn : List (Fin p)
  discount_forecast : Bool
  param1 : ℚ
  param2 : ℚ
  get_mean_and_var : (Fin p → ℚ) → (Fin p → ℚ) → Matrix (Fin p) (Fin p) ℚ → ℚ × ℚ

/-- Matrix inverse by the adjugate formula, as numpy.linalg.inv computes a
(mathematical) inverse of a nonsingular matrix. -/
def matInv {p : ℕ} (A : Matrix (Fin p) (Fin p) ℚ) : Matrix (Fin p) (Fin p) ℚ :=
  A.det⁻¹ • A.adjugate

/-- numpy.linalg.matrix_power: for a nonnegative exponent, iterated product;
for a negative exponent, the inverse is computed (raising LinAlgError on a
singular matrix) and then raised to the absolute value of the exponent. -/
def matrix_power {p : ℕ} (A : Matrix (Fin p) (Fin p) ℚ) (n : ℤ) :
    Except PyErr (Matrix (Fin p) (Fin p) ℚ) :=
  if 0 ≤ n then .ok (A ^ n.toNat)
  else if A.det = 0 then .error .SingularMatrix
  else .ok ((matInv A) ^ (-n).toNat)

/-- PyBATS.forecast.forecast_aR (forecast.py lines 6-12):
`Gk = matrix_power(G, k-1); a = Gk @ a; R = Gk @ R @ Gk.T;`
`if discount_forecast: R += (k-1)*W`. -/
def forecast_aR {p : ℕ} (mod : ModelSnapshot p) (k : ℤ) :
    Except PyErr ((Fin p → ℚ) × Matrix (Fin p) (Fin p) ℚ) := do
  let Gk ← matrix_power mod.G (k - 1)
  let a := Gk.mulVec mod.a
  let R0 := Gk * mod.R * Gk.transpose
  let R := if mod.discount_forecast then R0 + ((k - 1 : ℤ) : ℚ) • mod.W else R0
  return (a, R)

/-- A concrete one-dimensional snapshot used by witnesses. -/
def demoSnapshot : ModelSnapshot 1 where
  a := fun _ => 3
  R := Matrix.of fun _ _ => 5
  G := Matrix.of fun _ _ => 2
  W := Matrix.of fun _ _ => 7
  F := fun _ => 1
  iregn := []
  discount_forecast := true
  param1 := 0
  param2 := 0
  get_mean_and_var := fun F a R => (F 0 * a 0, F 0 * R 0 0 * F 0)

/-- True exactly on a non-error Python return value. -/
def exceptOk {ε α : Type} : Except ε α → Bool
  | .ok _ => true
  | .error _ => false

/-- numpy fancy assignment F[iregn] = x.reshape(nregn, 1) on a column
vector: positions listed in iregn receive the values of x in order (a later
duplicate index overwrites an earlier one, as numpy does). -/
def substF {p : ℕ} (F : Fin p → ℚ) : List (Fin p) → (ℕ → ℚ) → (Fin p → ℚ)
  | [], _ => F
  | r :: rs, x => substF (Function.update F r (x 0)) rs (fun t => x (t + 1))

/-- PyBATS.forecast.forecast_state_mean_and_var (forecast.py lines 387-402):
substitute the future regressors into a copy of F, evolve with forecast_aR,
and return the capability mean/variance of the linear predictor. -/
def forecast_state_mean_and_var {p : ℕ} (mod : ModelSnapshot p) (k : ℤ)
    (X : ℕ → ℚ) : Except PyErr (ℚ × ℚ) := do
  let F := if 0 < mod.iregn.length then substF mod.F mod.iregn X else mod.F
  let (a, R) ← forecast_aR mod k
  return mod.get_mean_and_var F a R

/-- The value forecast_aR yields at the (always valid) horizon i + 1. -/
def aRk {p : ℕ} (mod : ModelSnapshot p) (i : ℕ) :
    (Fin p → ℚ) × Matrix (Fin p) (Fin p) ℚ :=
  ((mod.G ^ i).mulVec mod.a,
    if mod.discount_forecast then
      (mod.G ^ i) * mod.R * (mod.G ^ i).transpose + (i : ℚ) • mod.W
    else (mod.G ^ i) * mod.R * (mod.G ^ i).transpose)

/-- State threaded by the loop of forecast_path_approx (forecast.py lines
103-134): lambda_mu, lambda_cov (zero initialized), the in-place updated
design vector F, and the retained per-horizon Flist / Rlist. -/
structure LamState (p : ℕ) where
  lm : ℕ → ℚ
  lc : ℕ → ℕ → ℚ
  F : Fin p → ℚ
  Flist : ℕ → Fin p → ℚ
  Rlist : ℕ → Matrix (Fin p) (Fin p) ℚ

/-- Single-entry assignment M[i, j] = v of a two-dimensional array. -/
def set2 (M : ℕ → ℕ → ℚ) (i j : ℕ) (v : ℚ) : ℕ → ℕ → ℚ :=
  fun a b => if a = i ∧ b = j then v else M a b

/-- Inner loop of forecast_path_approx (lines 130-134): for j < i set
`cov_ij = matrix_power(G, i-j) @ Rlist[j]` and
`lambda_cov[j,i] = lambda_cov[i,j] = Flist[j].T @ cov_ij @ Flist[i]`. -/
def innerCov {p : ℕ} (mod : ModelSnapshot p) (Flist : ℕ → Fin p → ℚ)
    (Rlist : ℕ → Matrix (Fin p) (Fin p) ℚ) (i : ℕ) :
    ℕ → (ℕ → ℕ → ℚ) → (ℕ → ℕ → ℚ)
  | 0, lc => lc
  | j + 1, lc =>
      let lc1 := innerCov mod Flist Rlist i j lc
      let cov_ij := (mod.G ^ (i - j)) * Rlist j
      let v := dotProduct (Flist j) (cov_ij.mulVec (Flist i))
      set2 (set2 lc1 j i v) i j v

/-- Body of the outer loop of forecast_path_approx at index i (lines
111-134): evolve to horizon i+1, retain R, substitute regressors into F,
retain F, write the marginal mean/variance, then fill the covariances with
all previous horizons. -/
def lamStep {p : ℕ} (mod : ModelSnapshot p) (X : ℕ → ℕ → ℚ) (i : ℕ)
    (st : LamState p) : Except PyErr (LamState p) := do
  let (a, R) ← forecast_aR mod ((i : ℤ) + 1)
  let Rlist := Function.update st.Rlist i R
  let F := if 0 < mod.iregn.length then substF st.F mod.iregn (X i) else st.F
  let Flist := Function.update st.Flist i F
  let fq := mod.get_mean_and_var F a R
  let lm := Function.update st.lm i fq.1
  let lc := set2 st.lc i i fq.2
  let lc2 := innerCov mod Flist Rlist i i lc
  return ⟨lm, lc2, F, Flist, Rlist⟩

/-- Initial loop state: lambda_mu = zeros(k), lambda_cov = zeros(k,k),
F = np.copy(mod.F), Flist/Rlist not yet populated. -/
def lamInit {p : ℕ} (mod : ModelSnapshot p) : LamState p :=
  ⟨fun _ => 0, fun _ _ => 0, mod.F, fun _ _ => 0, fun _ => 0⟩

def lamLoop {p : ℕ} (mod : ModelSnapshot p) (X : ℕ → ℕ → ℚ) :
    ℕ → Except PyErr (LamState p)
  | 0 => .ok (lamInit mod)
  | i + 1 => do
      let st ← lamLoop mod X i
      lamStep mod X i st

/-- The joint (lambda_mu, lambda_cov) builder of
PyBATS.forecast.forecast_path_approx (forecast.py lines 95-134): the loop
over horizons 1..k that fills lambda_mu and lambda_cov before the final
dispatch to the simulation or density routine. -/
def forecast_path_approx_lambda {p : ℕ} (mod : ModelSnapshot p) (k : ℕ)
    (X : ℕ → ℕ → ℚ) : Except PyErr (LamState p) :=
  lamLoop mod X k

/-- The design vector with the step-i regressors substituted. -/
def Fsub {p : ℕ} (mod : ModelSnapshot p) (X : ℕ → ℕ → ℚ) (i : ℕ) :
    Fin p → ℚ :=
  if 0 < mod.iregn.length then substF mod.F mod.iregn (X i) else mod.F

/-- Marginal mean/variance of the linear predictor at horizon i + 1. -/
def ftqtAt {p : ℕ} (mod : ModelSnapshot p) (X : ℕ → ℕ → ℚ) (i : ℕ) : ℚ × ℚ :=
  mod.get_mean_and_var (Fsub mod X i) (aRk mod i).1 (aRk mod i).2

/-- Loop invariant of the forecast_path_approx builder after m steps. -/
structure LamInv {p : ℕ} (mod : ModelSnapshot p) (X : ℕ → ℕ → ℚ) (m : ℕ)
    (st : LamState p) : Prop where
  hF : st.F = if m = 0 then mod.F else Fsub mod X (m - 1)
  hFlist : ∀ i < m, st.Flist i = Fsub mod X i
  hRlist : ∀ i < m, st.Rlist i = (aRk mod i).2
  hlm : ∀ i < m, st.lm i = (ftqtAt mod X i).1
  hdiag : ∀ i < m, st.lc i i = (ftqtAt mod X i).2
  hsym : ∀ a b, st.lc a b = st.lc b a


/-- The state produced by one body iteration of the forecast_path_approx
loop (the .ok payload of lamStep at a valid horizon). -/
def lamStepVal {p : ℕ} (mod : ModelSnapshot p) (X : ℕ → ℕ → ℚ) (m : ℕ)
    (st : LamState p) : LamState p :=
  let R := (aRk mod m).2
  let Rlist := Function.update st.Rlist m R
  let F := if 0 < mod.iregn.length then substF st.F mod.iregn (X m) else st.F
  let Flist := Function.update st.Flist m F
  let fq := mod.get_mean_and_var F (aRk mod m).1 R
  ⟨Function.update st.lm m fq.1,
    innerCov mod Flist Rlist m m (set2 st.lc m m fq.2), F, Flist, Rlist⟩

/-- An untyped numpy array over exact rationals (two-dimensional; column
vectors use column 0). -/
def Arr : Type := ℕ → ℕ → ℚ

/-- The heap of numpy arrays: caller-owned model arrays live here, and in
place mutation (fancy assignment, samps writes) is an update of `mem`.
Allocation hands out the next fresh reference. -/
structure Store where
  mem : ℕ → Arr
  next : ℕ

def alloc (v : Arr) (s : Store) : ℕ × Store :=
  (s.next, ⟨Function.update s.mem s.next v, s.next + 1⟩)

def readA (r : ℕ) (s : Store) : Arr := s.mem r

def writeA (r : ℕ) (v : Arr) (s : Store) : Store :=
  ⟨Function.update s.mem r v, s.next⟩

/-- Matrix product of p-dimensional arrays (numpy @ allocates a fresh
array, so the result is a value). -/
def mmul (p : ℕ) (A B : Arr) : Arr :=
  fun i j => ∑ t ∈ Finset.range p, A i t * B t j

/-- numpy transpose. -/
def tA (A : Arr) : Arr := fun i j => A j i

def aAdd (A B : Arr) : Arr := fun i j => A i j + B i j

def aSub (A B : Arr) : Arr := fun i j => A i j - B i j

def sMul (c : ℚ) (A : Arr) : Arr := fun i j => c * A i j

/-- In-place numpy fancy assignment A[iregn] = x.reshape(nregn, 1) on a
column array: row r takes value x t for the t-th listed index r. -/
def setRows (A : Arr) : List ℕ → (ℕ → ℚ) → Arr
  | [], _ => A
  | r :: rs, x =>
      setRows (fun i j => if i = r ∧ j = 0 then x 0 else A i j) rs
        (fun t => x (t + 1))

/-- The snapshot as forecast_path sees it: references into the caller-owned
store for the numpy arrays a, R, G, W, F, the scalar conjugate parameters,
and the capability interface.  `simulate` abstracts mod.simulate(p1, p2, 1)
as a random oracle indexed by the sample and step at which it is drawn. -/
structure PathModel where
  a : ℕ
  R : ℕ
  G : ℕ
  W : ℕ
  F : ℕ
  iregn : List ℕ
  discount_forecast : Bool
  param1 : ℚ
  param2 : ℚ
  get_mean_and_var : Arr → Arr → Arr → ℚ × ℚ
  get_conjugate_params : ℚ → ℚ → ℚ → ℚ → ℚ × ℚ
  simulate : ℚ → ℚ → ℕ → ℕ → ℚ
  update_conjugate_params : ℚ → ℚ → ℚ → ℚ × ℚ × ℚ × ℚ

/-- One step i of the inner loop of PyBATS.forecast.forecast_path
(forecast.py lines 61-90), for sample n.  The loop locals param1, param2
and the arrays a, R are rebound to freshly allocated results every
iteration (numpy arithmetic allocates), so they are threaded as values;
the only in-place mutations in the source are the fancy assignment into
the working copy F and the write into samps, both store writes here. -/
def pathStep (p : ℕ) (mod : PathModel) (X : ℕ → ℕ → ℚ) (Fr sampsR : ℕ)
    (n i : ℕ) (st : (ℚ × ℚ) × Arr × Arr × Store) :
    (ℚ × ℚ) × Arr × Arr × Store :=
  let pp := st.1
  let a := st.2.1
  let R := st.2.2.1
  let s0 := st.2.2.2
  let s1 := if 0 < mod.iregn.length
    then writeA Fr (setRows (readA Fr s0) mod.iregn (X i)) s0 else s0
  let F := readA Fr s1
  let fq := mod.get_mean_and_var F a R
  let cp := mod.get_conjugate_params fq.1 fq.2 pp.1 pp.2
  let y := mod.simulate cp.1 cp.2 n i
  let s2 := writeA sampsR
    (fun n2 i2 => if n2 = n ∧ i2 = i then y else readA sampsR s1 n2 i2) s1
  let up := mod.update_conjugate_params y cp.1 cp.2
  let mvec := aAdd a (sMul ((up.2.2.1 - fq.1) / fq.2) (mmul p R F))
  let C := aSub R (sMul ((1 - up.2.2.2 / fq.2) / fq.2)
    (mmul p (mmul p (mmul p R F) (tA F)) R))
  let G := readA mod.G s2
  let a2 := mmul p G mvec
  let R2 := mmul p (mmul p G C) (tA G)
  let R3 := sMul (1 / 2) (aAdd R2 (tA R2))
  let R4 := if mod.discount_forecast then aAdd R3 (readA mod.W s2) else R3
  ((up.1, up.2.1), a2, R4, s2)

def pathInner (p : ℕ) (mod : PathModel) (X : ℕ → ℕ → ℚ) (Fr sampsR n : ℕ) :
    ℕ → ((ℚ × ℚ) × Arr × Arr × Store) → ((ℚ × ℚ) × Arr × Arr × Store)
  | 0, st => st
  | i + 1, st => pathStep p mod X Fr sampsR n i (pathInner p mod X Fr sampsR n i st)

/-- Outer loop over samples (forecast.py lines 54-59): every sample starts
from private working copies of (param1, param2, a, R) taken from the
caller-owned snapshot. -/
def pathOuter (p : ℕ) (mod : PathModel) (X : ℕ → ℕ → ℚ) (k : ℕ)
    (Fr sampsR : ℕ) : ℕ → Store → Store
  | 0, s => s
  | n + 1, s =>
      let s1 := pathOuter p mod X k Fr sampsR n s
      let st := ((mod.param1, mod.param2), readA mod.a s1, readA mod.R s1, s1)
      (pathInner p mod X Fr sampsR n k st).2.2.2

/-- PyBATS.forecast.forecast_path (forecast.py lines 42-92): allocate
samps = np.zeros([nsamps, k]) and the working copy F = np.copy(mod.F),
then run the nested sampling loops; returns the reference of samps and the
final store. -/
def forecast_path (p : ℕ) (mod : PathModel) (k : ℕ) (X : ℕ → ℕ → ℚ)
    (nsamps : ℕ) (s0 : Store) : ℕ × Store :=
  let a1 := alloc (fun _ _ => 0) s0
  let a2 := alloc (readA mod.F a1.2) a1.2
  (a1.1, pathOuter p mod X k a2.1 a1.1 nsamps a2.2)

/-- A concrete five-array store and snapshot for the C7 witness. -/
def demoStore : Store := ⟨fun r _ _ => (r : ℚ), 5⟩

/-- A concrete snapshot of references into demoStore with simple
capability functions. -/
def demoPathModel : PathModel where
  a := 0
  R := 1
  G := 2
  W := 3
  F := 4
  iregn := [0]
  discount_forecast := true
  param1 := 1
  param2 := 2
  get_mean_and_var := fun F a R => (F 0 0 * a 0 0, R 0 0)
  get_conjugate_params := fun f q _ _ => (f, q)
  simulate := fun p1 _ _ _ => p1
  update_conjugate_params := fun y p1 p2 => (p1 + y, p2, y, 1)

/-- A concrete inner-loop state for the C8 witness. -/
def demoPathState : (ℚ × ℚ) × Arr × Arr × Store :=
  ((1, 2), (fun _ _ => 0), (fun _ _ => 0), demoStore)

/-- Model adapter interface consumed by the copula simulation routines
(exact rationals; randomness and distribution CDFs are oracles).
simulate_from_sampling_model takes the per-sample prior draws, nsamps, and
the sample index of the draw it produces. -/
structure SModel where
  param1 : ℚ
  param2 : ℚ
  get_conjugate_params : ℚ → ℚ → ℚ → ℚ → ℚ × ℚ
  prior_inverse_cdf : ℚ → ℚ → ℚ → ℚ
  simulate_from_sampling_model : (ℕ → ℚ) → ℕ → ℕ → ℚ

/-- PyBATS.forecast.forecast_path_approx_sim (forecast.py lines 197-229).
tDraw / nDraw are the multivariate Student-t / Gaussian joint draws
(margin, sample); tCdf loc scaledq nu x and nCdf loc q x are the marginal
scipy CDFs.  Output indexed (sample, margin) as the transposed array. -/
def forecast_path_approx_sim (mod : SModel) (k : ℕ) (lambda_mu : ℕ → ℚ)
    (lambda_cov : ℕ → ℕ → ℚ) (nsamps : ℕ) (t_dist : Bool) (nu : ℚ)
    (tDraw nDraw : ℕ → ℕ → ℚ) (tCdf : ℚ → ℚ → ℚ → ℚ → ℚ)
    (nCdf : ℚ → ℚ → ℚ → ℚ) : ℕ → ℕ → ℚ :=
  let scale : ℕ → ℕ → ℚ := fun i j => lambda_cov i j * ((nu - 2) / nu)
  let joint_samps : ℕ → ℕ → ℚ := if t_dist then tDraw else nDraw
  let cdfAt : ℕ → ℚ → ℚ := fun i x =>
    if t_dist then tCdf (lambda_mu i) (scale i i) nu x
    else nCdf (lambda_mu i) (lambda_cov i i) x
  let conj_params : ℕ → ℚ × ℚ := fun i =>
    mod.get_conjugate_params (lambda_mu i) (lambda_cov i i) mod.param1 mod.param2
  let unif_rvs : ℕ → ℕ → ℚ := fun i s => cdfAt i (joint_samps i s)
  let priorlist : ℕ → ℕ → ℚ := fun i s =>
    mod.prior_inverse_cdf (unif_rvs i s) (conj_params i).1 (conj_params i).2
  fun s i => mod.simulate_from_sampling_model (fun s2 => priorlist i s2) nsamps s

/-- PyBATS.forecast.forecast_joint_approx_sim (forecast.py lines 276-309).
The conjugate parameters are collected by the loop
`for i, mod in enumerate(mod_list)`; after that loop the Python name `mod`
remains bound to the LAST element of mod_list, and the subsequent lambdas
for prior_inverse_cdf and simulate_from_sampling_model read that leaked
loop variable (an unbound-name error on an empty mod_list). -/
def forecast_joint_approx_sim (mod_list : List SModel) (lambda_mu : ℕ → ℚ)
    (lambda_cov : ℕ → ℕ → ℚ) (nsamps : ℕ) (t_dist : Bool) (nu : ℚ)
    (tDraw nDraw : ℕ → ℕ → ℚ) (tCdf : ℚ → ℚ → ℚ → ℚ → ℚ)
    (nCdf : ℚ → ℚ → ℚ → ℚ) : Except PyErr (ℕ → ℕ → ℚ) :=
  let scale : ℕ → ℕ → ℚ := fun i j => lambda_cov i j * ((nu - 2) / nu)
  let joint_samps : ℕ → ℕ → ℚ := if t_dist then tDraw else nDraw
  let cdfAt : ℕ → ℚ → ℚ := fun i x =>
    if t_dist then tCdf (lambda_mu i) (scale i i) nu x
    else nCdf (lambda_mu i) (lambda_cov i i) x
  let conj_params : List (ℚ × ℚ) := mod_list.enum.map (fun im =>
    im.2.get_conjugate_params (lambda_mu im.1) (lambda_cov im.1 im.1)
      im.2.param1 im.2.param2)
  match mod_list.getLast? with
  | none => .error .NameError
  | some lastMod =>
      let unif_rvs : ℕ → ℕ → ℚ := fun i s => cdfAt i (joint_samps i s)
      let priorlist : ℕ → ℕ → ℚ := fun i s =>
        lastMod.prior_inverse_cdf (unif_rvs i s)
          ((conj_params.getD i (0, 0)).1) ((conj_params.getD i (0, 0)).2)
      .ok (fun s i =>
        lastMod.simulate_from_sampling_model (fun s2 => priorlist i s2) nsamps s)

/-- Model adapter interface consumed by the Monte-Carlo density routines
(exact reals). -/
structure DModel where
  param1 : ℝ
  param2 : ℝ
  get_conjugate_params : ℝ → ℝ → ℝ → ℝ → ℝ × ℝ
  prior_inverse_cdf : ℝ → ℝ → ℝ → ℝ
  sampling_density : ℝ → ℝ → ℝ

/-- np.mean of a list: the empty mean is NaN (not a real number). -/
noncomputable def npMean (l : List ℝ) : Option ℝ :=
  if l.isEmpty then none else some (l.sum / l.length)

/-- np.log, propagating NaN and sending nonpositive arguments to a
non-real float (-inf or nan). -/
noncomputable def npLog : Option ℝ → Option ℝ
  | none => none
  | some v => if 0 < v then some (Real.log v) else none

/-- The non-missing index set of y (entries are None when NaN):
`not_missing = np.logical_not(np.isnan(y))` as a list of kept indices. -/
def densIdx (y : List (Option ℝ)) : List ℕ :=
  (List.range y.length).filter (fun i => (y.getD i none).isSome)

/-- y restricted to its non-missing entries, `y = y[not_missing]`. -/
def densYF (y : List (Option ℝ)) : ℕ → ℝ :=
  fun t => (y.getD ((densIdx y).getD t 0) none).getD 0

/-- lambda_mu restricted to the non-missing entries. -/
def densLmF (y : List (Option ℝ)) (lambda_mu : ℕ → ℝ) : ℕ → ℝ :=
  fun t => lambda_mu ((densIdx y).getD t 0)

/-- lambda_cov restricted (rows and columns) to the non-missing entries,
`lambda_cov[np.ix_(not_missing, not_missing)]`. -/
def densLcF (y : List (Option ℝ)) (lambda_cov : ℕ → ℕ → ℝ) : ℕ → ℕ → ℝ :=
  fun t u => lambda_cov ((densIdx y).getD t 0) ((densIdx y).getD u 0)

/-- The marginal CDF of the joint distribution used for the copula
transform: Student-t margins with the reduced scale
lambda_cov*(nu-2)/nu under t_dist, Gaussian margins with variance
lambda_cov[t,t] otherwise (forecast.py lines 242-250). -/
noncomputable def densCdfAt (lmF : ℕ → ℝ) (lcF : ℕ → ℕ → ℝ) (t_dist : Bool) (nu : ℝ)
    (tCdf : ℝ → ℝ → ℝ → ℝ → ℝ) (nCdf : ℝ → ℝ → ℝ → ℝ) : ℕ → ℝ → ℝ :=
  fun t x =>
    if t_dist then tCdf (lmF t) (lcF t t * ((nu - 2) / nu)) nu x
    else nCdf (lmF t) (lcF t t) x

/-- Marginal moment-matched conjugate parameters (forecast.py lines
253-254): matched against the unscaled diagonal lambda_cov[t,t]. -/
def densConj (mod : DModel) (lmF : ℕ → ℝ) (lcF : ℕ → ℕ → ℝ) : ℕ → ℝ × ℝ :=
  fun t => mod.get_conjugate_params (lmF t) (lcF t t) mod.param1 mod.param2

/-- Per-margin prior draws through the copula inverse CDF (forecast.py
lines 257-262). -/
noncomputable def densPriors (mod : DModel) (lmF : ℕ → ℝ) (lcF : ℕ → ℕ → ℝ)
    (t_dist : Bool) (nu : ℝ) (joint : ℕ → ℕ → ℝ)
    (tCdf : ℝ → ℝ → ℝ → ℝ → ℝ) (nCdf : ℝ → ℝ → ℝ → ℝ) : ℕ → ℕ → ℝ :=
  fun t s =>
    mod.prior_inverse_cdf (densCdfAt lmF lcF t_dist nu tCdf nCdf t (joint t s))
      (densConj mod lmF lcF t).1 (densConj mod lmF lcF t).2

/-- Per-margin sampling densities of the non-missing y entries given the
per-sample prior draws (forecast.py lines 265-266). -/
noncomputable def densMargins (mod : DModel) (y : List (Option ℝ)) (lambda_mu : ℕ → ℝ)
    (lambda_cov : ℕ → ℕ → ℝ) (t_dist : Bool) (nu : ℝ)
    (tDraw nDraw : ℕ → ℕ → ℝ) (tCdf : ℝ → ℝ → ℝ → ℝ → ℝ)
    (nCdf : ℝ → ℝ → ℝ → ℝ) : ℕ → ℕ → ℝ :=
  fun t s =>
    mod.sampling_density (densYF y t)
      (densPriors mod (densLmF y lambda_mu) (densLcF y lambda_cov) t_dist nu
        (if t_dist then tDraw else nDraw) tCdf nCdf t s)

/-- PyBATS.forecast.forecast_path_approx_dens_MC (forecast.py lines
231-273): drop missing entries, draw copula samples, map to prior draws,
evaluate the per-margin sampling densities, accumulate each sample's joint
density in log space and exponentiate, and return the log of the
across-sample mean.  `zip(*density_list)` yields no sample tuples when
every margin is missing, so the averaged list is empty in that case and
np.mean returns NaN. -/
noncomputable def forecast_path_approx_dens_MC (mod : DModel)
    (y : List (Option ℝ)) (lambda_mu : ℕ → ℝ) (lambda_cov : ℕ → ℕ → ℝ)
    (t_dist : Bool) (nu : ℝ) (nsamps : ℕ) (tDraw nDraw : ℕ → ℕ → ℝ)
    (tCdf : ℝ → ℝ → ℝ → ℝ → ℝ) (nCdf : ℝ → ℝ → ℝ → ℝ) :
    Except PyErr (Option ℝ) :=
  let m := (densIdx y).length
  let density := densMargins mod y lambda_mu lambda_cov t_dist nu tDraw nDraw tCdf nCdf
  let path_density_list : List ℝ :=
    if m = 0 then []
    else (List.range nsamps).map (fun s =>
      Real.exp (((List.range m).map (fun t => Real.log (density t s))).sum))
  .ok (npLog (npMean path_density_list))

/-- The conjugate-parameter loop of forecast_joint_approx_dens_MC
(forecast.py lines 333-335): `for i, mod in enumerate(mod_list)` reads
lambda_mu[i] and lambda_cov[i,i] of the FILTERED arrays (length m), so it
raises IndexError as soon as i reaches m while models remain. -/
def jointConjLoop (m : ℕ) (lmF : ℕ → ℝ) (lcF : ℕ → ℕ → ℝ) :
    List (ℕ × DModel) → Except PyErr (List (ℝ × ℝ))
  | [] => .ok []
  | im :: rest =>
      if im.1 < m then do
        let c := im.2.get_conjugate_params (lmF im.1) (lcF im.1 im.1)
          im.2.param1 im.2.param2
        let cs ← jointConjLoop m lmF lcF rest
        return c :: cs
      else .error .IndexError

/-- Per-margin sampling densities of the multi-series density routine
(forecast.py lines 337-347): the copula prior draws and the density are
both taken from the model the leaked loop variable holds (the last model
of mod_list), with the conjugate pairs collected by the loop. -/
noncomputable def jointDensMargins (lastMod : DModel) (y : List (Option ℝ))
    (lambda_mu : ℕ → ℝ) (lambda_cov : ℕ → ℕ → ℝ) (conj : List (ℝ × ℝ))
    (t_dist : Bool) (nu : ℝ) (tDraw nDraw : ℕ → ℕ → ℝ)
    (tCdf : ℝ → ℝ → ℝ → ℝ → ℝ) (nCdf : ℝ → ℝ → ℝ → ℝ) : ℕ → ℕ → ℝ :=
  fun t s =>
    lastMod.sampling_density (densYF y t)
      (lastMod.prior_inverse_cdf
        (densCdfAt (densLmF y lambda_mu) (densLcF y lambda_cov) t_dist nu
          tCdf nCdf t ((if t_dist then tDraw else nDraw) t s))
        ((conj.getD t (0, 0)).1) ((conj.getD t (0, 0)).2))

/-- PyBATS.forecast.forecast_joint_approx_dens_MC (forecast.py lines
311-354).  As in the joint simulation routine, the lambdas after the
conjugate-parameter loop read the leaked loop variable `mod`, i.e. the
LAST model of mod_list, for prior_inverse_cdf and sampling_density. -/
noncomputable def forecast_joint_approx_dens_MC (mod_list : List DModel)
    (y : List (Option ℝ)) (lambda_mu : ℕ → ℝ) (lambda_cov : ℕ → ℕ → ℝ)
    (t_dist : Bool) (nu : ℝ) (nsamps : ℕ) (tDraw nDraw : ℕ → ℕ → ℝ)
    (tCdf : ℝ → ℝ → ℝ → ℝ → ℝ) (nCdf : ℝ → ℝ → ℝ → ℝ) :
    Except PyErr (Option ℝ) := do
  let m := (densIdx y).length
  let lmF := densLmF y lambda_mu
  let lcF := densLcF y lambda_cov
  let conj ← jointConjLoop m lmF lcF mod_list.enum
  match mod_list.getLast? with
  | none => .error .NameError
  | some lastMod =>
      let density : ℕ → ℕ → ℝ :=
        jointDensMargins lastMod y lambda_mu lambda_cov conj t_dist nu
          tDraw nDraw tCdf nCdf
      let joint_density_list : List ℝ :=
        if m = 0 then []
        else (List.range nsamps).map (fun s =>
          Real.exp (((List.range m).map (fun t => Real.log (density t s))).sum))
      .ok (npLog (npMean joint_density_list))

/-- Two concrete simulation models with distinct inverse-CDF and sampling
behavior, to observe which model each margin of the joint routines uses. -/
def bugModelA : SModel :=
  ⟨0, 0, fun f q _ _ => (f, q), fun _ _ _ => 5, fun prior _ s => prior s⟩

def bugModelB : SModel :=
  ⟨0, 0, fun f q _ _ => (f, q), fun _ _ _ => 1, fun prior _ s => prior s + 10⟩

/-- Two concrete density models with distinct sampling densities. -/
def bugDModelA : DModel :=
  ⟨0, 0, fun f q _ _ => (f, q), fun _ _ _ => 0, fun _ _ => 2⟩

def bugDModelB : DModel :=
  ⟨0, 0, fun f q _ _ => (f, q), fun _ _ _ => 0, fun _ _ => 3⟩

def bugY : List (Option ℝ) := [some 0, some 0]

instance {ε α : Type} [DecidableEq ε] [DecidableEq α] :
    DecidableEq (Except ε α) := fun a b =>
  match a, b with
  | .ok x, .ok y => decidable_of_iff (x = y) (by simp)
  | .error x, .error y => decidable_of_iff (x = y) (by simp)
  | .ok _, .error _ => isFalse (fun h => Except.noConfusion h)
  | .error _, .ok _ => isFalse (fun h => Except.noConfusion h)

/-- A concrete density model and observation for witnesses. -/
def demoDModel : DModel :=
  ⟨0, 0, fun f q _ _ => (f, q), fun u _ _ => u, fun _ _ => 1⟩

def allMissingY : List (Option ℝ) := [none, none]

/-- PyBATS.forecast.multivariate_t_density, dim > 1 branch (forecast.py
lines 378-380, 385): the general matrix formula
`constant = Gamma((nu+dim)/2) / (Gamma(nu/2) * sqrt((pi*nu)**dim * det(scale)))`,
`dens = (1 + (y-mean).T @ inv(scale) @ (y-mean) / nu) ** (-(nu+dim)/2)`,
returning `1 * constant * dens`. -/
noncomputable def multivariate_t_density_matrix_branch (d : ℕ)
    (y mean : Fin d → ℝ) (scale : Matrix (Fin d) (Fin d) ℝ) (nu : ℝ) : ℝ :=
  1 * (Real.Gamma ((nu + d) / 2)
      / (Real.Gamma (nu / 2) * Real.sqrt ((Real.pi * nu) ^ d * scale.det)))
    * (1 + dotProduct (fun i => y i - mean i)
        (scale⁻¹.mulVec (fun i => y i - mean i)) / nu) ^ (-(nu + d) / 2)

/-- PyBATS.forecast.multivariate_t_density, scalar-dimension branch
(forecast.py lines 381-385), written for dim = 1 with the 1x1 scale entry:
`constant = Gamma((nu+dim)/2) / (Gamma(nu/2) * sqrt((pi*nu)**dim * scale))`,
`dens = (1 + (y-mean)**2 / (nu*scale)) ** (-(nu+dim)/2)`,
returning `1 * constant * dens`. -/
noncomputable def multivariate_t_density_scalar_branch
    (y mean scale nu : ℝ) : ℝ :=
  1 * (Real.Gamma ((nu + 1) / 2)
      / (Real.Gamma (nu / 2) * Real.sqrt ((Real.pi * nu) ^ (1 : ℕ) * scale)))
    * (1 + (y - mean) ^ 2 / (nu * scale)) ^ (-(nu + 1) / 2)

/-- Claim C2: for every ModelSnapshot and every horizon k >= 1, forecast_aR
returns a_k = G^(k-1) a and R_k = G^(k-1) R (G^(k-1))^T, with (k-1)*W added
to R_k exactly when the discount_forecast flag is set; in particular at
k = 1 it returns (a, R) unchanged. -/
theorem forecast_aR_horizon_formula {p : ℕ} (mod : ModelSnapshot p) (k : ℤ)
    (hk : 1 ≤ k) :
    forecast_aR mod k =
      .ok ((mod.G ^ (k - 1).toNat).mulVec mod.a,
        if mod.discount_forecast then
          (mod.G ^ (k - 1).toNat) * mod.R * (mod.G ^ (k - 1).toNat).transpose
            + ((k - 1 : ℤ) : ℚ) • mod.W
        else (mod.G ^ (k - 1).toNat) * mod.R * (mod.G ^ (k - 1).toNat).transpose)
    ∧ forecast_aR mod 1 = .ok (mod.a, mod.R) := by
  constructor
  · have h0 : (0 : ℤ) ≤ k - 1 := by omega
    simp [forecast_aR, matrix_power, h0, bind, Except.bind, pure, Except.pure]
  · have h1 : forecast_aR mod 1 =
        .ok ((mod.G ^ (0 : ℕ)).mulVec mod.a,
          if mod.discount_forecast then
            (mod.G ^ (0 : ℕ)) * mod.R * (mod.G ^ (0 : ℕ)).transpose
              + ((0 : ℤ) : ℚ) • mod.W
          else (mod.G ^ (0 : ℕ)) * mod.R * (mod.G ^ (0 : ℕ)).transpose) := by
      simp [forecast_aR, matrix_power, bind, Except.bind, pure, Except.pure]
    rw [h1]
    simp [Matrix.one_mulVec]

/-- Witness for C2 at a concrete snapshot and horizon k = 1. -/
theorem forecast_aR_horizon_formula_witness :
    (1 : ℤ) ≤ 1 ∧
    (forecast_aR demoSnapshot 1 =
      .ok ((demoSnapshot.G ^ ((1 : ℤ) - 1).toNat).mulVec demoSnapshot.a,
        if demoSnapshot.discount_forecast then
          (demoSnapshot.G ^ ((1 : ℤ) - 1).toNat) * demoSnapshot.R
              * (demoSnapshot.G ^ ((1 : ℤ) - 1).toNat).transpose
            + (((1 : ℤ) - 1 : ℤ) : ℚ) • demoSnapshot.W
        else (demoSnapshot.G ^ ((1 : ℤ) - 1).toNat) * demoSnapshot.R
              * (demoSnapshot.G ^ ((1 : ℤ) - 1).toNat).transpose)
      ∧ forecast_aR demoSnapshot 1 = .ok (demoSnapshot.a, demoSnapshot.R)) :=
  ⟨by decide, forecast_aR_horizon_formula demoSnapshot 1 (by decide)⟩

/-- Counterexample to claim C5: with the invertible transition matrix of
demoSnapshot and horizon k = 0 < 1, forecast_aR does not fail at all — no
InvalidHorizon precondition error is raised; numpy silently computes the
negative matrix power through the inverse of G. -/
theorem forecast_aR_k0_no_error :
    exceptOk (forecast_aR demoSnapshot 0) = true
      ∧ forecast_aR demoSnapshot 0 ≠ .error PyErr.InvalidHorizon := by
  have hdet : (demoSnapshot.G).det = 2 := by
    simp [demoSnapshot, Matrix.det_fin_one]
  have hneg : ¬ ((0 : ℤ) ≤ 0 - 1) := by norm_num
  constructor <;>
    simp [forecast_aR, matrix_power, hdet, hneg, bind, Except.bind, pure,
      Except.pure, exceptOk]

/-- Claim C5 amended: forecast_aR performs no horizon validation.  For
every k < 1 it sends the negative exponent k - 1 into
numpy.linalg.matrix_power, which inverts G: when G is invertible the call
silently returns (G^(k-1) a, G^(k-1) R G^(k-1)^T (+ (k-1) W)), and when G
is singular it fails with a singular-matrix linear-algebra error, never
with an InvalidHorizon precondition error. -/
theorem forecast_aR_negative_horizon {p : ℕ} (mod : ModelSnapshot p) (k : ℤ)
    (hk : k < 1) :
    (mod.G.det ≠ 0 → forecast_aR mod k =
      .ok ((((matInv mod.G) ^ (1 - k).toNat)).mulVec mod.a,
        if mod.discount_forecast then
          ((matInv mod.G) ^ (1 - k).toNat) * mod.R
              * (((matInv mod.G) ^ (1 - k).toNat)).transpose
            + ((k - 1 : ℤ) : ℚ) • mod.W
        else ((matInv mod.G) ^ (1 - k).toNat) * mod.R
              * (((matInv mod.G) ^ (1 - k).toNat)).transpose))
    ∧ (mod.G.det = 0 → forecast_aR mod k = .error PyErr.SingularMatrix) := by
  have hneg : ¬ ((0 : ℤ) ≤ k - 1) := by omega
  have htn : (-(k - 1)).toNat = (1 - k).toNat := by omega
  constructor
  · intro hdet
    simp [forecast_aR, matrix_power, hneg, hdet, htn, bind, Except.bind, pure,
      Except.pure]
  · intro hdet
    simp [forecast_aR, matrix_power, hneg, hdet, bind, Except.bind]

/-- Witness for the amended C5 at the concrete demoSnapshot and k = 0. -/
theorem forecast_aR_negative_horizon_witness :
    (0 : ℤ) < 1 ∧
    ((demoSnapshot.G.det ≠ 0 → forecast_aR demoSnapshot 0 =
      .ok ((((matInv demoSnapshot.G) ^ (1 - (0 : ℤ)).toNat)).mulVec demoSnapshot.a,
        if demoSnapshot.discount_forecast then
          ((matInv demoSnapshot.G) ^ (1 - (0 : ℤ)).toNat) * demoSnapshot.R
              * (((matInv demoSnapshot.G) ^ (1 - (0 : ℤ)).toNat)).transpose
            + (((0 : ℤ) - 1 : ℤ) : ℚ) • demoSnapshot.W
        else ((matInv demoSnapshot.G) ^ (1 - (0 : ℤ)).toNat) * demoSnapshot.R
              * (((matInv demoSnapshot.G) ^ (1 - (0 : ℤ)).toNat)).transpose))
    ∧ (demoSnapshot.G.det = 0 → forecast_aR demoSnapshot 0 = .error PyErr.SingularMatrix)) :=
  ⟨by decide, forecast_aR_negative_horizon demoSnapshot 0 (by decide)⟩

/-- Entries outside the assigned index list are untouched. -/
theorem substF_eq_of_not_mem {p : ℕ} (F : Fin p → ℚ) (rs : List (Fin p))
    (x : ℕ → ℚ) (j : Fin p) (hj : j ∉ rs) : substF F rs x j = F j := by
  induction rs generalizing F x with
  | nil => rfl
  | cons r rs ih =>
      have hjr : j ≠ r := fun h => hj (by simp [h])
      have hjs : j ∉ rs := fun h => hj (by simp [h])
      rw [substF, ih _ _ hjs, Function.update_noteq hjr]

/-- The assigned result depends on the base vector only outside the
assigned index list. -/
theorem substF_congr {p : ℕ} (F F' : Fin p → ℚ) (rs : List (Fin p))
    (x : ℕ → ℚ) (h : ∀ j, j ∉ rs → F j = F' j) :
    substF F rs x = substF F' rs x := by
  induction rs generalizing F F' x with
  | nil => funext j; exact h j (by simp)
  | cons r rs ih =>
      rw [substF, substF]
      apply ih
      intro j hj
      by_cases hjr : j = r
      · subst hjr; simp
      · rw [Function.update_noteq hjr, Function.update_noteq hjr]
        exact h j (by simp [hjr, hj])

/-- Re-assigning the same index list overwrites the previous assignment. -/
theorem substF_substF {p : ℕ} (F : Fin p → ℚ) (rs : List (Fin p))
    (x x' : ℕ → ℚ) : substF (substF F rs x) rs x' = substF F rs x' :=
  substF_congr _ _ _ _ (fun j hj => substF_eq_of_not_mem F rs x j hj)

theorem forecast_aR_succ {p : ℕ} (mod : ModelSnapshot p) (i : ℕ) :
    forecast_aR mod ((i : ℤ) + 1) = .ok (aRk mod i) := by
  have h0 : (0 : ℤ) ≤ (i : ℤ) + 1 - 1 := by omega
  have ht : ((i : ℤ) + 1 - 1).toNat = i := by omega
  simp only [forecast_aR, matrix_power, h0, if_pos, ht, bind, Except.bind,
    pure, Except.pure, aRk]
  norm_num

theorem innerCov_symm {p : ℕ} (mod : ModelSnapshot p) (Flist : ℕ → Fin p → ℚ)
    (Rlist : ℕ → Matrix (Fin p) (Fin p) ℚ) (i : ℕ) :
    ∀ n lc, (∀ a b, lc a b = lc b a) →
      ∀ a b, innerCov mod Flist Rlist i n lc a b
        = innerCov mod Flist Rlist i n lc b a := by
  intro n
  induction n with
  | zero => intro lc h a b; exact h a b
  | succ j ih =>
      intro lc h a b
      have hlc1 := ih lc h
      simp only [innerCov, set2]
      split_ifs <;> first | rfl | (exact hlc1 a b) | tauto

theorem innerCov_diag {p : ℕ} (mod : ModelSnapshot p) (Flist : ℕ → Fin p → ℚ)
    (Rlist : ℕ → Matrix (Fin p) (Fin p) ℚ) (i : ℕ) :
    ∀ n, n ≤ i → ∀ lc (a : ℕ),
      innerCov mod Flist Rlist i n lc a a = lc a a := by
  intro n
  induction n with
  | zero => intro _ lc a; rfl
  | succ j ih =>
      intro hn lc a
      have hji : j < i := by omega
      have h1 : ¬(a = i ∧ a = j) := by omega
      have h2 : ¬(a = j ∧ a = i) := by omega
      simp only [innerCov, set2]
      rw [if_neg h1, if_neg h2]
      exact ih (by omega) lc a

theorem lamStep_eq {p : ℕ} (mod : ModelSnapshot p) (X : ℕ → ℕ → ℚ) (m : ℕ)
    (st : LamState p) : lamStep mod X m st = .ok (lamStepVal mod X m st) := by
  rw [lamStep, forecast_aR_succ]
  rfl

theorem lamStep_inv {p : ℕ} (mod : ModelSnapshot p) (X : ℕ → ℕ → ℚ) (m : ℕ)
    (st : LamState p) (hinv : LamInv mod X m st) :
    LamInv mod X (m + 1) (lamStepVal mod X m st) := by
  have hF' : (if 0 < mod.iregn.length then substF st.F mod.iregn (X m) else st.F)
      = Fsub mod X m := by
    by_cases hlen : 0 < mod.iregn.length
    · rw [if_pos hlen, Fsub, if_pos hlen]
      cases m with
      | zero => rw [hinv.hF]; simp
      | succ m0 =>
          rw [hinv.hF]
          simp only [Nat.succ_ne_zero, if_false, Nat.succ_sub_one]
          rw [Fsub, if_pos hlen, substF_substF]
    · rw [if_neg hlen, Fsub, if_neg hlen, hinv.hF]
      cases m with
      | zero => simp
      | succ m0 =>
          simp only [Nat.succ_ne_zero, if_false, Nat.succ_sub_one]
          rw [Fsub, if_neg hlen]
  constructor
  · simp [lamStepVal, hF']
  · intro i hi
    by_cases him : i = m
    · subst him; simp [lamStepVal, hF']
    · have hlt : i < m := by omega
      simp [lamStepVal, Function.update_noteq him, hinv.hFlist i hlt]
  · intro i hi
    by_cases him : i = m
    · subst him; simp [lamStepVal]
    · have hlt : i < m := by omega
      simp [lamStepVal, Function.update_noteq him, hinv.hRlist i hlt]
  · intro i hi
    by_cases him : i = m
    · subst him; simp [lamStepVal, hF', ftqtAt]
    · have hlt : i < m := by omega
      simp [lamStepVal, Function.update_noteq him, hinv.hlm i hlt]
  · intro i hi
    simp only [lamStepVal]
    rw [innerCov_diag mod _ _ m m (le_refl m)]
    by_cases him : i = m
    · subst him
      simp [set2, hF', ftqtAt]
    · have hlt : i < m := by omega
      have hne : ¬(i = m ∧ i = m) := by omega
      rw [set2, if_neg hne]
      exact hinv.hdiag i hlt
  · intro a b
    simp only [lamStepVal]
    apply innerCov_symm
    intro a' b'
    simp only [set2]
    split_ifs <;> first | rfl | (exact hinv.hsym a' b') | tauto

theorem lamLoop_inv {p : ℕ} (mod : ModelSnapshot p) (X : ℕ → ℕ → ℚ) :
    ∀ m, ∃ st, lamLoop mod X m = .ok st ∧ LamInv mod X m st := by
  intro m
  induction m with
  | zero =>
      refine ⟨lamInit mod, rfl, ?_⟩
      constructor <;> first
        | simp [lamInit]
        | (intro i hi; omega)
        | (intro a b; rfl)
  | succ m ih =>
      obtain ⟨st, hok, hinv⟩ := ih
      refine ⟨lamStepVal mod X m st, ?_, lamStep_inv mod X m st hinv⟩
      simp only [lamLoop, hok, bind, Except.bind]
      exact lamStep_eq mod X m st

/-- Claim C3: for every ModelSnapshot and horizon k, and every i in 1..k
(zero-indexed i < k here), the i-th diagonal entry of the lambda_cov matrix
built by forecast_path_approx equals, by the same computation path, the
marginal variance qt returned by forecast_state_mean_and_var at horizon
i + 1 with the same substituted regressors. -/
theorem lambda_cov_diag_eq_marginal_qt {p : ℕ} (mod : ModelSnapshot p)
    (k : ℕ) (X : ℕ → ℕ → ℚ) (i : ℕ) (hik : i < k) :
    Except.map (fun st => st.lc i i) (forecast_path_approx_lambda mod k X)
      = Except.map Prod.snd (forecast_state_mean_and_var mod ((i : ℤ) + 1) (X i)) := by
  obtain ⟨st, hok, hinv⟩ := lamLoop_inv mod X k
  have h2 : forecast_state_mean_and_var mod ((i : ℤ) + 1) (X i)
      = .ok (ftqtAt mod X i) := by
    rw [forecast_state_mean_and_var, forecast_aR_succ]
    simp [bind, Except.bind, pure, Except.pure, ftqtAt, Fsub, aRk]
  rw [forecast_path_approx_lambda, hok, h2]
  simp [Except.map, hinv.hdiag i hik]

/-- Witness for C3 at the concrete demoSnapshot, k = 2, i = 1. -/
theorem lambda_cov_diag_eq_marginal_qt_witness :
    1 < 2 ∧
    Except.map (fun st => st.lc 1 1)
        (forecast_path_approx_lambda demoSnapshot 2 (fun _ _ => 0))
      = Except.map Prod.snd
        (forecast_state_mean_and_var demoSnapshot (((1 : ℕ) : ℤ) + 1) (fun _ => 0)) :=
  ⟨by decide,
   lambda_cov_diag_eq_marginal_qt demoSnapshot 2 (fun _ _ => 0) 1 (by decide)⟩

theorem pathStep_mem (p : ℕ) (mod : PathModel) (X : ℕ → ℕ → ℚ)
    (Fr sampsR n i : ℕ) (st : (ℚ × ℚ) × Arr × Arr × Store) (r : ℕ)
    (h1 : r ≠ Fr) (h2 : r ≠ sampsR) :
    ((pathStep p mod X Fr sampsR n i st).2.2.2).mem r = (st.2.2.2).mem r ∧
    ((pathStep p mod X Fr sampsR n i st).2.2.2).next = (st.2.2.2).next := by
  simp only [pathStep]
  by_cases hlen : 0 < mod.iregn.length <;>
    simp [hlen, writeA, Function.update_noteq h1, Function.update_noteq h2]

theorem pathInner_mem (p : ℕ) (mod : PathModel) (X : ℕ → ℕ → ℚ)
    (Fr sampsR n : ℕ) (r : ℕ) (h1 : r ≠ Fr) (h2 : r ≠ sampsR) :
    ∀ i st,
      ((pathInner p mod X Fr sampsR n i st).2.2.2).mem r = (st.2.2.2).mem r ∧
      ((pathInner p mod X Fr sampsR n i st).2.2.2).next = (st.2.2.2).next := by
  intro i
  induction i with
  | zero => intro st; exact ⟨rfl, rfl⟩
  | succ i ih =>
      intro st
      have hs := pathStep_mem p mod X Fr sampsR n i
        (pathInner p mod X Fr sampsR n i st) r h1 h2
      have hi := ih st
      exact ⟨hs.1.trans hi.1, hs.2.trans hi.2⟩

theorem pathOuter_mem (p : ℕ) (mod : PathModel) (X : ℕ → ℕ → ℚ)
    (k Fr sampsR : ℕ) (r : ℕ) (h1 : r ≠ Fr) (h2 : r ≠ sampsR) :
    ∀ n s, (pathOuter p mod X k Fr sampsR n s).mem r = s.mem r ∧
      (pathOuter p mod X k Fr sampsR n s).next = s.next := by
  intro n
  induction n with
  | zero => intro s; exact ⟨rfl, rfl⟩
  | succ n ih =>
      intro s
      have hi := ih s
      have hs := pathInner_mem p mod X Fr sampsR n r h1 h2 k
        ((mod.param1, mod.param2),
          readA mod.a (pathOuter p mod X k Fr sampsR n s),
          readA mod.R (pathOuter p mod X k Fr sampsR n s),
          pathOuter p mod X k Fr sampsR n s)
      exact ⟨hs.1.trans hi.1, hs.2.trans hi.2⟩

/-- Claim C7: no forecasting call mutates the caller-owned snapshot.
forecast_path gives each sample a private working copy of
(a, R, param1, param2) and only ever writes in place into its two freshly
allocated arrays (samps and the working copy of F), so every array that
existed before the call — in particular the snapshot arrays a, R, F, G, W —
is bit-for-bit unchanged in the final store (param1, param2 are immutable
scalar fields of the snapshot record and are only rebound locally). -/
theorem forecast_path_frame (p : ℕ) (mod : PathModel) (k : ℕ)
    (X : ℕ → ℕ → ℚ) (nsamps : ℕ) (s0 : Store)
    (ha : mod.a < s0.next) (hR : mod.R < s0.next) (hF : mod.F < s0.next)
    (hG : mod.G < s0.next) (hW : mod.W < s0.next) :
    (∀ r, r < s0.next →
      ((forecast_path p mod k X nsamps s0).2).mem r = s0.mem r)
    ∧ ((forecast_path p mod k X nsamps s0).2).mem mod.a = s0.mem mod.a
    ∧ ((forecast_path p mod k X nsamps s0).2).mem mod.R = s0.mem mod.R
    ∧ ((forecast_path p mod k X nsamps s0).2).mem mod.F = s0.mem mod.F
    ∧ ((forecast_path p mod k X nsamps s0).2).mem mod.G = s0.mem mod.G
    ∧ ((forecast_path p mod k X nsamps s0).2).mem mod.W = s0.mem mod.W := by
  have key : ∀ r, r < s0.next →
      ((forecast_path p mod k X nsamps s0).2).mem r = s0.mem r := by
    intro r hr
    have h2 : r ≠ s0.next := by omega
    have h1 : r ≠ s0.next + 1 := by omega
    simp only [forecast_path, alloc]
    rw [(pathOuter_mem p mod X k (s0.next + 1) s0.next r h1 h2 nsamps _).1]
    simp [Function.update_noteq h1, Function.update_noteq h2]
  exact ⟨key, key _ ha, key _ hR, key _ hF, key _ hG, key _ hW⟩

/-- Witness for C7 at the concrete demoStore and demoPathModel. -/
theorem forecast_path_frame_witness :
    (demoPathModel.a < demoStore.next ∧ demoPathModel.R < demoStore.next
      ∧ demoPathModel.F < demoStore.next ∧ demoPathModel.G < demoStore.next
      ∧ demoPathModel.W < demoStore.next)
    ∧ ((∀ r, r < demoStore.next →
      ((forecast_path 1 demoPathModel 2 (fun _ _ => 0) 3 demoStore).2).mem r
        = demoStore.mem r)
    ∧ ((forecast_path 1 demoPathModel 2 (fun _ _ => 0) 3 demoStore).2).mem demoPathModel.a
        = demoStore.mem demoPathModel.a
    ∧ ((forecast_path 1 demoPathModel 2 (fun _ _ => 0) 3 demoStore).2).mem demoPathModel.R
        = demoStore.mem demoPathModel.R
    ∧ ((forecast_path 1 demoPathModel 2 (fun _ _ => 0) 3 demoStore).2).mem demoPathModel.F
        = demoStore.mem demoPathModel.F
    ∧ ((forecast_path 1 demoPathModel 2 (fun _ _ => 0) 3 demoStore).2).mem demoPathModel.G
        = demoStore.mem demoPathModel.G
    ∧ ((forecast_path 1 demoPathModel 2 (fun _ _ => 0) 3 demoStore).2).mem demoPathModel.W
        = demoStore.mem demoPathModel.W) :=
  ⟨⟨by decide, by decide, by decide, by decide, by decide⟩,
   forecast_path_frame 1 demoPathModel 2 (fun _ _ => 0) 3 demoStore
     (by decide) (by decide) (by decide) (by decide) (by decide)⟩

/-- Claim C8: covariance matrices stay symmetric after every covariance
transform.  First conjunct: in forecast_path the propagated R is explicitly
re-symmetrized as (R + R.T)/2 after each Kalman-style update, so the R
handed to the next step is symmetric (given a symmetric evolution
covariance W for the discount branch).  Second conjunct: the lambda_cov
matrix built by forecast_path_approx is symmetric by construction, since
lambda_cov[j,i] and lambda_cov[i,j] are assigned the same value
F_j^T G^(i-j) R_j F_i for every j < i. -/
theorem covariance_transforms_symmetric (p : ℕ) (mod : PathModel)
    (X : ℕ → ℕ → ℚ) (Fr sampsR n i : ℕ) (st : (ℚ × ℚ) × Arr × Arr × Store)
    (hWF : mod.W ≠ Fr) (hWs : mod.W ≠ sampsR)
    (hWsym : ∀ a b, (st.2.2.2).mem mod.W a b = (st.2.2.2).mem mod.W b a)
    (q : ℕ) (mod2 : ModelSnapshot q) (k : ℕ) (X2 : ℕ → ℕ → ℚ) :
    (∀ a b, ((pathStep p mod X Fr sampsR n i st).2.2.1) a b
        = ((pathStep p mod X Fr sampsR n i st).2.2.1) b a)
    ∧ ∃ st2, forecast_path_approx_lambda mod2 k X2 = .ok st2
        ∧ ∀ a b, st2.lc a b = st2.lc b a := by
  constructor
  · intro a b
    simp only [pathStep]
    by_cases hd : mod.discount_forecast <;>
      by_cases hlen : 0 < mod.iregn.length <;>
        (simp only [hd, hlen, if_true, if_false, aAdd, aSub, sMul, tA,
          writeA, readA, Bool.false_eq_true]
         try rw [Function.update_noteq hWs, Function.update_noteq hWF]
         try rw [Function.update_noteq hWs]
         try rw [hWsym a b]
         ring)
  · obtain ⟨st2, hok, hinv⟩ := lamLoop_inv mod2 X2 k
    exact ⟨st2, hok, hinv.hsym⟩

/-- Witness for C8 at concrete inputs. -/
theorem covariance_transforms_symmetric_witness :
    (demoPathModel.W ≠ 6 ∧ demoPathModel.W ≠ 7
      ∧ ∀ a b, (demoPathState.2.2.2).mem demoPathModel.W a b
          = (demoPathState.2.2.2).mem demoPathModel.W b a)
    ∧ ((∀ a b,
        ((pathStep 1 demoPathModel (fun _ _ => 0) 6 7 0 0 demoPathState).2.2.1) a b
          = ((pathStep 1 demoPathModel (fun _ _ => 0) 6 7 0 0 demoPathState).2.2.1) b a)
    ∧ ∃ st2, forecast_path_approx_lambda demoSnapshot 2 (fun _ _ => 0) = .ok st2
        ∧ ∀ a b, st2.lc a b = st2.lc b a) :=
  ⟨⟨by decide, by decide, fun _ _ => rfl⟩,
   covariance_transforms_symmetric 1 demoPathModel (fun _ _ => 0) 6 7 0 0
     demoPathState (by decide) (by decide) (fun _ _ => rfl)
     1 demoSnapshot 2 (fun _ _ => 0)⟩

/-- Claim C10: in forecast_path_approx_sim and forecast_path_approx_dens_MC
every margin's conjugate parameters are moment-matched to the unscaled
pair (lambda_mu[i], lambda_cov[i,i]) regardless of the t_dist flag: the
copula CDF uses the reduced scale lambda_cov[i,i]*(nu-2)/nu under t_dist,
but get_conjugate_params always receives the original variance
lambda_cov[i,i].  First conjunct: the simulation routine; second conjunct:
the prior-draw stage of the density routine. -/
theorem conjugate_match_targets_unscaled_variance (mod : SModel) (k : ℕ)
    (lambda_mu : ℕ → ℚ) (lambda_cov : ℕ → ℕ → ℚ) (nsamps : ℕ)
    (t_dist : Bool) (nu : ℚ) (tDraw nDraw : ℕ → ℕ → ℚ)
    (tCdf : ℚ → ℚ → ℚ → ℚ → ℚ) (nCdf : ℚ → ℚ → ℚ → ℚ) (s i : ℕ)
    (dmod : DModel) (lmF : ℕ → ℝ) (lcF : ℕ → ℕ → ℝ) (nu2 : ℝ)
    (joint : ℕ → ℕ → ℝ) (tCdf2 : ℝ → ℝ → ℝ → ℝ → ℝ)
    (nCdf2 : ℝ → ℝ → ℝ → ℝ) (t s2 : ℕ) :
    forecast_path_approx_sim mod k lambda_mu lambda_cov nsamps t_dist nu
        tDraw nDraw tCdf nCdf s i
      = mod.simulate_from_sampling_model
          (fun s3 => mod.prior_inverse_cdf
            (if t_dist then
              tCdf (lambda_mu i) (lambda_cov i i * ((nu - 2) / nu)) nu (tDraw i s3)
             else nCdf (lambda_mu i) (lambda_cov i i) (nDraw i s3))
            (mod.get_conjugate_params (lambda_mu i) (lambda_cov i i)
              mod.param1 mod.param2).1
            (mod.get_conjugate_params (lambda_mu i) (lambda_cov i i)
              mod.param1 mod.param2).2)
          nsamps s
    ∧ densPriors dmod lmF lcF t_dist nu2 joint tCdf2 nCdf2 t s2
      = dmod.prior_inverse_cdf
          (if t_dist then
            tCdf2 (lmF t) (lcF t t * ((nu2 - 2) / nu2)) nu2 (joint t s2)
           else nCdf2 (lmF t) (lcF t t) (joint t s2))
          (dmod.get_conjugate_params (lmF t) (lcF t t)
            dmod.param1 dmod.param2).1
          (dmod.get_conjugate_params (lmF t) (lcF t t)
            dmod.param1 dmod.param2).2 := by
  constructor
  · cases t_dist <;> rfl
  · cases t_dist <;> rfl

/-- Claim C1 evaluated on the code: in forecast_joint_approx_sim with
mod_list = [bugModelA, bugModelB], margin 0 is produced by bugModelB (the
last model, through the leaked loop variable): its value is
picdf_B(...) + 10 = 11, not the value 5 that bugModelA's inverse-CDF and
sampler (with margin 0's conjugate parameters (0, 1)) would give, which is
what the claim predicts.  Likewise forecast_joint_approx_dens_MC evaluates
every margin's density with bugDModelB (density 3), giving log(3*3) = log 9
instead of the claim-predicted log(2*3) = log 6. -/
theorem joint_routines_use_last_model :
    Except.map (fun out => out 0 0)
        (forecast_joint_approx_sim [bugModelA, bugModelB] (fun _ => 0)
          (fun _ _ => 1) 1 false 9 (fun _ _ => 0) (fun _ _ => 0)
          (fun _ _ _ _ => 0) (fun _ _ _ => 0))
      = .ok 11
    ∧ (.ok 11 : Except PyErr ℚ)
      ≠ .ok (bugModelA.simulate_from_sampling_model
          (fun s2 => bugModelA.prior_inverse_cdf 0 0 1) 1 0)
    ∧ forecast_joint_approx_dens_MC [bugDModelA, bugDModelB] bugY
        (fun _ => 0) (fun _ _ => 1) false 9 1 (fun _ _ => 0) (fun _ _ => 0)
        (fun _ _ _ _ => 0) (fun _ _ _ => 0)
      = .ok (some (Real.log 9))
    ∧ Real.log 9 ≠ Real.log 6 := by
  refine ⟨?_, ?_, ?_, ?_⟩
  · have hlast : ([bugModelA, bugModelB] : List SModel).getLast? = some bugModelB := rfl
    simp only [forecast_joint_approx_sim, hlast, Except.map]
    norm_num [bugModelB]
  · intro h
    have h2 := Except.ok.inj h
    norm_num [bugModelA] at h2
  · have hstep : forecast_joint_approx_dens_MC [bugDModelA, bugDModelB] bugY
        (fun _ => 0) (fun _ _ => 1) false 9 1 (fun _ _ => 0) (fun _ _ => 0)
        (fun _ _ _ _ => 0) (fun _ _ _ => 0)
        = .ok (npLog (npMean [Real.exp (Real.log 3 + (Real.log 3 + 0))])) := rfl
    have h3 : (0 : ℝ) < 3 := by norm_num
    have h9 : Real.exp (Real.log 3 + (Real.log 3 + 0)) = 9 := by
      rw [add_zero, Real.exp_add, Real.exp_log h3]
      norm_num
    rw [hstep, h9]
    norm_num [npMean, npLog]
  · intro h
    have h2 := congrArg Real.exp h
    rw [Real.exp_log (by norm_num), Real.exp_log (by norm_num)] at h2
    norm_num at h2

/-- Counterexample to claim C4: with every entry of y missing, the
single-series density routine raises no error at all — it silently returns
NaN (np.log of the mean of an empty list), and the multi-series routine
fails, but with an IndexError raised while the conjugate-parameter loop
indexes the emptied lambda_mu, not with an AllMissing precondition
error. -/
theorem all_missing_not_surfaced :
    forecast_path_approx_dens_MC demoDModel allMissingY (fun _ => 0)
        (fun _ _ => 1) false 9 5 (fun _ _ => 0) (fun _ _ => 0)
        (fun _ _ _ _ => 0) (fun _ _ _ => 0) = .ok none
    ∧ forecast_path_approx_dens_MC demoDModel allMissingY (fun _ => 0)
        (fun _ _ => 1) false 9 5 (fun _ _ => 0) (fun _ _ => 0)
        (fun _ _ _ _ => 0) (fun _ _ _ => 0) ≠ .error PyErr.AllMissing
    ∧ forecast_joint_approx_dens_MC [bugDModelA, bugDModelB] allMissingY
        (fun _ => 0) (fun _ _ => 1) false 9 5 (fun _ _ => 0) (fun _ _ => 0)
        (fun _ _ _ _ => 0) (fun _ _ _ => 0) = .error PyErr.IndexError
    ∧ forecast_joint_approx_dens_MC [bugDModelA, bugDModelB] allMissingY
        (fun _ => 0) (fun _ _ => 1) false 9 5 (fun _ _ => 0) (fun _ _ => 0)
        (fun _ _ _ _ => 0) (fun _ _ _ => 0) ≠ .error PyErr.AllMissing := by
  refine ⟨rfl, ?_, rfl, ?_⟩
  · intro h
    rw [show forecast_path_approx_dens_MC demoDModel allMissingY (fun _ => 0)
        (fun _ _ => 1) false 9 5 (fun _ _ => 0) (fun _ _ => 0)
        (fun _ _ _ _ => 0) (fun _ _ _ => 0) = .ok none from rfl] at h
    exact Except.noConfusion h
  · intro h
    rw [show forecast_joint_approx_dens_MC [bugDModelA, bugDModelB] allMissingY
        (fun _ => 0) (fun _ _ => 1) false 9 5 (fun _ _ => 0) (fun _ _ => 0)
        (fun _ _ _ _ => 0) (fun _ _ _ => 0) = .error PyErr.IndexError from rfl] at h
    have h2 := Except.error.inj h
    exact PyErr.noConfusion h2

/-- Claim C4 amended: when every entry of y is missing, the density
routines perform no AllMissing precondition check.
forecast_path_approx_dens_MC proceeds with the empty margin set and
silently returns NaN, the log of the mean of an empty list.
forecast_joint_approx_dens_MC with a nonempty mod_list does fail, but with
an out-of-bounds IndexError raised when the conjugate-parameter loop
indexes the emptied lambda_mu — not with an AllMissing error. -/
theorem all_missing_behavior (mod : DModel) (mods : List DModel)
    (y : List (Option ℝ)) (lambda_mu : ℕ → ℝ) (lambda_cov : ℕ → ℕ → ℝ)
    (t_dist : Bool) (nu : ℝ) (nsamps : ℕ) (tDraw nDraw : ℕ → ℕ → ℝ)
    (tCdf : ℝ → ℝ → ℝ → ℝ → ℝ) (nCdf : ℝ → ℝ → ℝ → ℝ)
    (hy : densIdx y = []) (hmods : mods ≠ []) :
    forecast_path_approx_dens_MC mod y lambda_mu lambda_cov t_dist nu nsamps
        tDraw nDraw tCdf nCdf = .ok none
    ∧ forecast_joint_approx_dens_MC mods y lambda_mu lambda_cov t_dist nu
        nsamps tDraw nDraw tCdf nCdf = .error PyErr.IndexError := by
  constructor
  · simp [forecast_path_approx_dens_MC, hy, npMean, npLog]
  · obtain ⟨hd, tl, rfl⟩ := List.exists_cons_of_ne_nil hmods
    simp [forecast_joint_approx_dens_MC, hy, jointConjLoop, List.enum,
      List.enumFrom, bind, Except.bind]

/-- Witness for the amended C4 at a concrete all-missing y. -/
theorem all_missing_behavior_witness :
    (densIdx allMissingY = [] ∧ ([demoDModel] : List DModel) ≠ [])
    ∧ (forecast_path_approx_dens_MC demoDModel allMissingY (fun _ => 0)
        (fun _ _ => 1) true 9 3 (fun _ _ => 0) (fun _ _ => 0)
        (fun _ _ _ _ => 0) (fun _ _ _ => 0) = .ok none
    ∧ forecast_joint_approx_dens_MC [demoDModel] allMissingY (fun _ => 0)
        (fun _ _ => 1) true 9 3 (fun _ _ => 0) (fun _ _ => 0)
        (fun _ _ _ _ => 0) (fun _ _ _ => 0) = .error PyErr.IndexError) :=
  ⟨⟨by decide, List.cons_ne_nil _ _⟩,
   all_missing_behavior demoDModel [demoDModel] allMissingY (fun _ => 0)
     (fun _ _ => 1) true 9 3 (fun _ _ => 0) (fun _ _ => 0)
     (fun _ _ _ _ => 0) (fun _ _ _ => 0) (by decide) (List.cons_ne_nil _ _)⟩

/-- Claim C9: for dimension 1, the scalar branch of multivariate_t_density
returns, over exact real arithmetic, the same value as the general matrix
formula used for dimension > 1 instantiated at dimension 1 — the scalar
branch merely avoids the 1x1 matrix inverse and determinant.  (The
identity holds for every real scale, as both sides treat a zero scale
through the zero inverse.) -/
theorem multivariate_t_density_dim1_branches_agree (y mean scale nu : ℝ) :
    multivariate_t_density_scalar_branch y mean scale nu
      = multivariate_t_density_matrix_branch 1 (fun _ => y) (fun _ => mean)
          (Matrix.of fun _ _ => scale) nu := by
  have hdet : (Matrix.of fun _ _ => scale : Matrix (Fin 1) (Fin 1) ℝ).det
      = scale := by
    simp [Matrix.det_fin_one]
  have hinv : (Matrix.of fun _ _ => scale : Matrix (Fin 1) (Fin 1) ℝ)⁻¹
      = Matrix.of fun _ _ => scale⁻¹ := by
    rw [Matrix.inv_def, Matrix.adjugate_fin_one, hdet]
    ext i j
    fin_cases i
    fin_cases j
    simp [Ring.inverse_eq_inv]
  have hquad : dotProduct (fun i : Fin 1 => (fun _ : Fin 1 => y) i
        - (fun _ : Fin 1 => mean) i)
      (((Matrix.of fun _ _ => scale : Matrix (Fin 1) (Fin 1) ℝ))⁻¹.mulVec
        (fun i : Fin 1 => (fun _ : Fin 1 => y) i - (fun _ : Fin 1 => mean) i))
      = (y - mean) * (scale⁻¹ * (y - mean)) := by
    rw [hinv]
    simp [dotProduct, Matrix.mulVec, Fin.sum_univ_one]
  have hdiv : (y - mean) * (scale⁻¹ * (y - mean)) / nu
      = (y - mean) ^ 2 / (nu * scale) := by
    rw [div_eq_mul_inv, div_eq_mul_inv, mul_inv]
    ring
  rw [multivariate_t_density_scalar_branch, multivariate_t_density_matrix_branch,
    hdet, hquad, hdiv]
  norm_num

